import Mathlib

/-!
Verification of the GitHub repository inventory plugin
(`plugins/inventory/github_repositories_inventory.py`).

The development shallowly embeds the plugin's classification logic
(`populate`, lines 194-239, and `parse_groupnames`, lines 99-114), its
cache branching (`parse`, lines 116-165), and the mutations it performs
against the Ansible inventory sink.  External collaborators (Python's
`re.findall`, `str` builtins, Ansible's `to_safe_group_name` and the
`InventoryData` sink) are modelled at their documented interfaces.
-/

set_option autoImplicit false

/-- Variable values passed through to the inventory sink.  Models the
scalar/list payloads of one repository record (`project.items()`). -/
inductive Value where
  | s (v : String)
  | n (v : Int)
  | b (v : Bool)
  | null
  | strList (v : List String)
  | langMap (v : List (String × Nat))
deriving DecidableEq, Repr

/-- One repository record as consumed by `populate`: the raw GitHub data
with the fields the plugin reads (`id`, `name`, `topics`, `languages`)
made explicit and the remaining key/value pairs kept opaque in `extras`.
`languages` is `none` exactly when the Python value is `None` (set by
`get_repositories` when `group_by_languages` is off). -/
structure Repo where
  id : Int
  name : String
  topics : List String
  languages : Option (List (String × Nat))
  extras : List (String × Value)
deriving DecidableEq, Repr

/-- Models `project.items()`: the key/value pairs of the raw record.
The explicit fields come first (in a fixed order; dict order is opaque
pass-through data), then the remaining pairs. -/
def Repo.items (p : Repo) : List (String × Value) :=
  ("id", Value.n p.id) ::
  ("name", Value.s p.name) ::
  ("topics", Value.strList p.topics) ::
  ("languages",
    (match p.languages with
      | none => Value.null
      | some m => Value.langMap m)) :: p.extras

/-- Character-list core of `pyStartsWith`. -/
def startsAux : List Char → List Char → Bool
  | _, [] => true
  | [], _ :: _ => false
  | c :: cs, p :: ps => c == p && startsAux cs ps

/-- Models Python `str.startswith(pre)`. -/
def pyStartsWith (s pre : String) : Bool :=
  startsAux s.data pre.data

/-- Models Python `str.lower()` (ASCII range, which covers GitHub
language names). -/
def pyLower (s : String) : String :=
  String.mk (s.data.map Char.toLower)

/-- Models Python `str.replace(" ", "")`: drops every space. -/
def pyRemoveSpaces (s : String) : String :=
  String.mk (s.data.filter (fun c => !(c == ' ')))

/-- Models Python `str.replace("-", "_")`: every hyphen becomes an
underscore. -/
def pyReplaceDash (s : String) : String :=
  String.mk (s.data.map (fun c => if c == '-' then '_' else c))

/-- Characters Ansible considers valid in a group name: `[A-Za-z0-9_]`. -/
def isSafeChar (c : Char) : Bool :=
  c.isAlphanum || c == '_'

/-- Models the external Ansible `to_safe_group_name(name, force=True,
silent=True)`: every character outside `[A-Za-z0-9_]` is replaced by
an underscore. -/
def to_safe_group_name (s : String) : String :=
  String.mk (s.data.map (fun c => if isSafeChar c then c else '_'))

/-- Models `next((topic for topic in topics if topic.startswith("team-")), None)`
(line 202 of the plugin). -/
def findTeam (topics : List String) : Option String :=
  topics.find? (fun tp => pyStartsWith tp "team-")

/-- Embeds `parse_groupnames` (plugin lines 99-114).  The call to the
external `re.findall(regex_filter, repository['name'])` is abstracted
into the `matches` argument: one entry per non-overlapping match, each
entry the list of its captured groups (Python returns tuples for
patterns with several capture groups).  `none` models the Python
`False` returns: no match at all, or the `IndexError` on
`matches[0][0]` caught by the handler. -/
def parse_groupnames (ms : List (List String)) : Option (List String) :=
  match ms with
  | [] => none
  | m0 :: _ =>
    match m0 with
    | [] => none
    | c0 :: _ =>
      let main_group := "main-" ++ c0
      let result := if main_group ≠ "" then [main_group] else []
      some (result ++ ms.flatten)

/-- Embeds the group-name accumulation of `populate` (plugin lines
200-216): the team topic or the `unassigned` sentinel, then the
regex-derived groups when a regex filter is configured, otherwise the
`unassigned` fallback guarded by a membership test.  `f` models
`re.findall` (pattern, subject ↦ matches). -/
def computeGroupnames (rf : String) (f : String → String → List (List String))
    (p : Repo) : List String :=
  let g1 : List String :=
    match findTeam p.topics with
    | some t => [t]
    | none => ["unassigned"]
  if rf ≠ "" then
    match parse_groupnames (f rf p.name) with
    | some rg => if rg.isEmpty then g1 else g1 ++ rg
    | none => g1
  else
    if "unassigned" ∈ g1 then g1 else g1 ++ ["unassigned"]

/-- Mutations issued against the external Ansible inventory sink. -/
inductive Op where
  | addGroup (g : String)
  | addHost (h : String) (g : String)
  | setVar (h : String) (k : String) (v : Value)
deriving DecidableEq, Repr

/-- The inventory sink: group existence, per-group host membership and
per-host variables.  Models Ansible's `InventoryData`, whose
`add_group`/`add_host` are idempotent and whose `set_variable`
overwrites. -/
@[ext]
structure Inventory where
  groups : String → Bool
  hosts : String → String → Bool
  hostvars : String → String → Option Value

/-- An inventory with no groups, hosts or variables. -/
def Inventory.fresh : Inventory :=
  ⟨fun _ => false, fun _ _ => false, fun _ _ => none⟩

/-- Applies one sink mutation. -/
def applyOp (inv : Inventory) : Op → Inventory
  | Op.addGroup g =>
    { inv with groups := fun x => (x == g) || inv.groups x }
  | Op.addHost h g =>
    { inv with hosts := fun gx hx => (gx == g && hx == h) || inv.hosts gx hx }
  | Op.setVar h k v =>
    { inv with hostvars := fun hx kx =>
        if hx == h && kx == k then some v else inv.hostvars hx kx }

/-- Applies a whole mutation sequence, left to right. -/
def applyOps : List Op → Inventory → Inventory
  | [], inv => inv
  | op :: L, inv => applyOps L (applyOp inv op)

/-- Sink mutations of the language loop (plugin lines 218-221): for
every language key, an `add_group` of the safe lowercased de-spaced
name and an `add_host` of the repository name into it. -/
def langOps (name : String) : List (String × Nat) → List Op
  | [] => []
  | kv :: rest =>
    Op.addGroup (to_safe_group_name (pyRemoveSpaces (pyLower kv.1))) ::
    Op.addHost name (to_safe_group_name (pyRemoveSpaces (pyLower kv.1))) ::
    langOps name rest

/-- Sink mutations of the group-name loop (plugin lines 222-225): for
every accumulated group name, an `add_group` of the hyphen-normalized
name and an `add_host` of `str(project['name'])` into it. -/
def groupOps (name : String) : List String → List Op
  | [] => []
  | ge :: rest =>
    Op.addGroup (pyReplaceDash ge) ::
    Op.addHost name (pyReplaceDash ge) ::
    groupOps name rest

/-- Sink mutations of the variable block (plugin lines 227-232),
executed once per repository on `hostname` (the repository name):
`ansible_host`, `ansible_connection`, every record field, and the
`team` variable when a team topic was found. -/
def varOps (p : Repo) (team : Option String) : List Op :=
  Op.setVar p.name "ansible_host" (Value.s "localhost") ::
  Op.setVar p.name "ansible_connection" (Value.s "local") ::
  ((p.items.map (fun kv => Op.setVar p.name kv.1 kv.2)) ++
    (match team with
      | some t => [Op.setVar p.name "team" (Value.s t)]
      | none => []))

/-- Whether processing this repository raises inside `populate`: with
`group_by_languages` on, `project['languages'].items()` (line 219)
raises `AttributeError` when the field is Python `None`. -/
def repoFails (gbl : Bool) (p : Repo) : Bool :=
  gbl && p.languages.isNone

/-- Sink mutations of one iteration of the `for project in r` loop
(plugin lines 198-232), in source order: language loop, group-name
loop, variable block.  `none` models the `AttributeError` raised on
line 219 when `languages` is `None`. -/
def repoOps (rf : String) (gbl : Bool) (f : String → String → List (List String))
    (p : Repo) : Option (List Op) :=
  let groupnames := computeGroupnames rf f p
  let team := findTeam p.topics
  if gbl then
    match p.languages with
    | none => none
    | some langs =>
      some (langOps p.name langs ++ groupOps p.name groupnames ++ varOps p team)
  else
    some (groupOps p.name groupnames ++ varOps p team)

/-- Sink mutations of the whole loop.  The single `try/except` around
the loop body (plugin lines 195-239) means the first raising repository
aborts the remainder of the batch. -/
def popOps (rf : String) (gbl : Bool) (f : String → String → List (List String)) :
    List Repo → List Op
  | [] => []
  | p :: ps =>
    match repoOps rf gbl f p with
    | some ops => ops ++ popOps rf gbl f ps
    | none => []

/-- Embeds `populate` (plugin lines 194-239) as a transformer of the
inventory sink.  `r = none` models `populate(None)` after a failed
fetch: `for project in None` raises immediately, the handler returns,
and the sink is untouched. -/
def populate (rf : String) (gbl : Bool) (f : String → String → List (List String))
    (r : Option (List Repo)) (inv : Inventory) : Inventory :=
  match r with
  | none => inv
  | some repos => applyOps (popOps rf gbl f repos) inv

/-- Python truthiness of the `results` value at `not results` (plugin
line 153): `None` and the empty list are falsy. -/
def pyFalsy : Option (List Repo) → Bool
  | none => true
  | some l => l.isEmpty

/-- Outcome of the cache branching in `parse`: the value handed to
`populate`, the value written to `self._cache[cache_key]` (if any), and
whether `get_repositories` was invoked. -/
structure ParseOut where
  results : Option (List Repo)
  cacheWrite : Option (Option (List Repo))
  fetchCalled : Bool
deriving DecidableEq, Repr

/-- Embeds the cache branching of `parse` (plugin lines 126-165).
`user_cache` is the `cache` option, `cache` the plugin-lifecycle flag,
`cached` the store content at the key (`none` = `KeyError` miss),
`fetched` what `get_repositories()` would return (`none` = failed
fetch, Python `None`).  The Python local `results` is tracked as an
`Option`; evaluating `not results` or a later read while it is unbound
yields `Except.error ()` (an `UnboundLocalError`).  The condition on
line 153 is evaluated with Python's short-circuit order. -/
def parse (user_cache cache : Bool) (cached : Option (Option (List Repo)))
    (fetched : Option (List Repo)) : Except Unit ParseOut :=
  let attempt := user_cache && cache
  let needs0 := user_cache && !cache
  let st : Option (Option (List Repo)) × Bool :=
    if attempt then
      match cached with
      | some v => (some v, needs0)
      | none => (none, true)
    else (none, needs0)
  let resultsVar := st.1
  let needs := st.2
  let condE : Except Unit Bool :=
    if !attempt then Except.ok true
    else if needs then Except.ok true
    else
      match resultsVar with
      | none => Except.error ()
      | some r => Except.ok (pyFalsy r)
  match condE with
  | Except.error e => Except.error e
  | Except.ok cond =>
    let resultsVar2 := if cond then some fetched else resultsVar
    match resultsVar2 with
    | none => Except.error ()
    | some r =>
      Except.ok ⟨r, if needs then some r else none, cond⟩

/-- Models `re.findall("(svc)-(\\d+)", s)` at one position: the literal
`svc-` followed by a non-empty maximal digit run. -/
def svcMatchAt : List Char → Option (List Char × List Char)
  | 's' :: 'v' :: 'c' :: '-' :: rest =>
    let ds := rest.takeWhile Char.isDigit
    if ds.isEmpty then none else some (ds, rest.dropWhile Char.isDigit)
  | _ => none

/-- Left-to-right non-overlapping scan for `(svc)-(\d+)`, advancing one
character on failure as `re` does.  Fuel bounds the scan by the input
length. -/
def svcFindallAux : Nat → List Char → List (List String)
  | 0, _ => []
  | fuel + 1, cs =>
    match svcMatchAt cs with
    | some (ds, rest) => ["svc", String.mk ds] :: svcFindallAux fuel rest
    | none =>
      match cs with
      | [] => []
      | _ :: cs2 => svcFindallAux fuel cs2

/-- Models the external `re.findall` for the fixed pattern
`"(svc)-(\\d+)"` (the pattern argument is ignored). -/
def svcEngine : String → String → List (List String) :=
  fun _ s => svcFindallAux s.length s.data

/-- Models `re.findall("(a)-(a)", s)` at one position. -/
def aaMatchAt : List Char → Option (List Char)
  | 'a' :: '-' :: 'a' :: rest => some rest
  | _ => none

/-- Left-to-right non-overlapping scan for `(a)-(a)`. -/
def aaFindallAux : Nat → List Char → List (List String)
  | 0, _ => []
  | fuel + 1, cs =>
    match aaMatchAt cs with
    | some rest => ["a", "a"] :: aaFindallAux fuel rest
    | none =>
      match cs with
      | [] => []
      | _ :: cs2 => aaFindallAux fuel cs2

/-- Models the external `re.findall` for the fixed pattern `"(a)-(a)"`. -/
def aaEngine : String → String → List (List String) :=
  fun _ s => aaFindallAux s.length s.data

/-- A regex engine that never matches (any pattern that does not occur
in the repository names at hand). -/
def noFind : String → String → List (List String) :=
  fun _ _ => []

/-- Concrete repository with a team topic (used at empty regex filter). -/
def repoPlat : Repo := ⟨1, "platform-svc", ["team-platform"], none, []⟩

/-- Concrete repository named `repo-a` with id 42. -/
def repoA : Repo := ⟨42, "repo-a", ["team-platform"], none, []⟩

/-- Concrete repository named `a-a` with no topics. -/
def repoAA : Repo := ⟨2, "a-a", [], none, []⟩

/-- Concrete repository named `svc-42-deploy` with a team topic. -/
def repoSvc : Repo := ⟨7, "svc-42-deploy", ["team-platform"], none, []⟩

/-- Concrete repository whose `languages` field is Python `None`:
raises in `populate` when `group_by_languages` is on. -/
def badRepo : Repo := ⟨3, "bad", [], none, []⟩

/-- Concrete unproblematic repository (empty language map). -/
def goodRepo : Repo := ⟨4, "good", [], some [], []⟩

/-- Concrete repository with topic `team-x`. -/
def repoTX : Repo := ⟨5, "tx", ["team-x"], none, []⟩

/-- Whether one mutation makes group `g` present (aligned with
`applyOp`). -/
def opAddsGroup (g : String) : Op → Bool
  | Op.addGroup gx => g == gx
  | _ => false

/-- Whether one mutation puts host `h` into group `g` (aligned with
`applyOp`). -/
def opAddsHost (g h : String) : Op → Bool
  | Op.addHost hx gx => g == gx && h == hx
  | _ => false

/-- The value one mutation writes to variable `k` of host `h`, if any. -/
def writeOf (h k : String) : Op → Option Value
  | Op.setVar hx kx v => if h == hx && k == kx then some v else none
  | _ => none

/-- The last write to variable `k` of host `h` in a mutation sequence. -/
def lastWrite (h k : String) : List Op → Option Value
  | [] => none
  | op :: L =>
    match lastWrite h k L with
    | some v => some v
    | none => writeOf h k op

/-- The group names a mutation hands to the sink. -/
def opGroupNames : Op → List String
  | Op.addGroup g => [g]
  | Op.addHost _ g => [g]
  | Op.setVar _ _ _ => []

/-! ## Helper lemmas -/

/-- After `str.replace("-", "_")` no hyphen remains. -/
theorem pyReplaceDash_no_dash (s : String) : ('-' : Char) ∉ (pyReplaceDash s).data := by
  intro hmem
  simp only [pyReplaceDash, List.mem_map] at hmem
  rcases hmem with ⟨c, _, hc⟩
  split at hc
  · exact absurd hc (by decide)
  · rename_i hcond
    rw [hc] at hcond
    exact hcond (by decide)

/-- After `to_safe_group_name` no hyphen remains. -/
theorem to_safe_group_name_no_dash (s : String) :
    ('-' : Char) ∉ (to_safe_group_name s).data := by
  intro hmem
  simp only [to_safe_group_name, List.mem_map] at hmem
  rcases hmem with ⟨c, _, hc⟩
  split at hc
  · rename_i hcond
    rw [hc] at hcond
    exact absurd hcond (by decide)
  · exact absurd hc (by decide)

/-- A found team topic starts with `team-`, hence differs from
`unassigned`. -/
theorem findTeam_ne_unassigned {topics : List String} {t : String}
    (h : findTeam topics = some t) : ("unassigned" : String) ≠ t := by
  unfold findTeam at h
  have ht := List.find?_some h
  have ht2 : pyStartsWith t "team-" = true := ht
  intro he
  rw [← he] at ht2
  exact absurd ht2 (by decide)

/-- With an empty regex filter the accumulated group names are the team
topic (when found) followed by `unassigned`, or just `unassigned`. -/
theorem groupnames_noregex (f : String → String → List (List String)) (p : Repo) :
    computeGroupnames "" f p =
      (match findTeam p.topics with
        | some t => [t, "unassigned"]
        | none => ["unassigned"]) := by
  unfold computeGroupnames
  cases h : findTeam p.topics with
  | none => simp
  | some t =>
    have hne := findTeam_ne_unassigned h
    simp [hne]

/-! ## C1 -/

/-- C1 counterexample: for the concrete repository with topic
`team-platform` and an empty regex filter, `unassigned` IS in the
classification result, contradicting the claim that it is not added. -/
theorem c1_counterexample :
    "unassigned" ∈ computeGroupnames "" noFind repoPlat := by decide

/-- C1 amended: with a team topic found and an empty regex filter,
classification yields exactly the team group followed by the sentinel
`unassigned` (the fallback on lines 214-216 fires because the list does
not yet contain `unassigned`). -/
theorem c1_team_noregex_amended (f : String → String → List (List String))
    (p : Repo) (t : String) (h : findTeam p.topics = some t) :
    computeGroupnames "" f p = [t, "unassigned"] := by
  rw [groupnames_noregex, h]

/-- Witness for C1 amended at the concrete repository `repoPlat`. -/
theorem c1_team_noregex_amended_witness :
    findTeam repoPlat.topics = some "team-platform" ∧
      computeGroupnames "" noFind repoPlat = ["team-platform", "unassigned"] :=
  ⟨by decide, c1_team_noregex_amended noFind repoPlat "team-platform" (by decide)⟩

/-! ## C6 -/

/-- C6 counterexample: with regex filter `(a)-(a)` on the repository
named `a-a`, the accumulated group names are
`["unassigned", "main-a", "a", "a"]` — the capture `a` occurs twice, so
the result is not duplicate-free. -/
theorem c6_counterexample :
    ¬ (computeGroupnames "(a)-(a)" aaEngine repoAA).Nodup := by decide

/-- C6 amended: duplicates are NOT dropped on insert (the accumulator
is a plain list), and repeated regex captures do produce duplicates;
only in the absence of a regex filter is the classification result
guaranteed duplicate-free. -/
theorem c6_noregex_nodup (f : String → String → List (List String)) (p : Repo) :
    (computeGroupnames "" f p).Nodup := by
  rw [groupnames_noregex]
  cases h : findTeam p.topics with
  | none => simp
  | some t =>
    have hne := findTeam_ne_unassigned h
    simp [List.nodup_cons]
    exact fun he => hne he.symm

/-! ## C7 -/

/-- C7: with regex filter `(svc)-(\d+)` on the repository named
`svc-42-deploy` (topic `team-platform`), classification yields the
topic group plus `main-svc` (synthetic `main-` group from the first
capture of the first match) plus each captured group `svc` and `42`,
before hyphen normalization. -/
theorem c7_svc_regex_groups :
    computeGroupnames "(svc)-(\\d+)" svcEngine repoSvc =
      ["team-platform", "main-svc", "svc", "42"] := by decide

/-! ## Cache-branching lemmas -/

/-- On a cache hit with caching enabled and no refresh, `parse` returns
the cached value directly when it is truthy and refetches when it is
falsy (the `or not results` disjunct on line 153). -/
theorem parse_hit (v : Option (List Repo)) (fetched : Option (List Repo)) :
    parse true true (some v) fetched =
      Except.ok ⟨if pyFalsy v then fetched else v, none, pyFalsy v⟩ := by
  cases hb : pyFalsy v <;> simp [parse, hb]

/-! ## C4 -/

/-- C4 counterexample: an empty cached sequence (written by a prior
successful run that found no repositories) is falsy, so `parse`
refetches (`fetchCalled = true`) and the fetched value replaces the
cached one, contradicting the claim that the cached value is used
without invoking the fetch. -/
theorem c4_counterexample :
    parse true true (some (some ([] : List Repo))) (some [goodRepo]) =
      Except.ok ⟨some [goodRepo], none, true⟩ := rfl

/-- C4 amended: the cached value of a prior successful run is used
without invoking the fetch only when it is a NON-EMPTY sequence; an
empty cached sequence is falsy under `or not results` (line 153) and
triggers a refetch. -/
theorem c4_nonempty_cache_hit (l : List Repo) (fetched : Option (List Repo))
    (h : l ≠ []) :
    parse true true (some (some l)) fetched = Except.ok ⟨some l, none, false⟩ := by
  have hf : pyFalsy (some l) = false := by
    cases l with
    | nil => exact absurd rfl h
    | cons a as => rfl
  rw [parse_hit, hf]
  rfl

/-- Witness for C4 amended at the concrete one-element cache value. -/
theorem c4_nonempty_cache_hit_witness :
    [goodRepo] ≠ [] ∧
      parse true true (some (some [goodRepo])) none =
        Except.ok ⟨some [goodRepo], none, false⟩ :=
  ⟨by decide, c4_nonempty_cache_hit [goodRepo] none (by decide)⟩

/-! ## C5 -/

/-- C5 counterexample: caching enabled and refresh forced, fetch fails
(`get_repositories` returns `None`): the cache IS written, with the
Python `None` value (`cacheWrite = some none`), contradicting the claim
that the store is left unchanged on fetch failure. -/
theorem c5_counterexample :
    parse true false none none = Except.ok ⟨none, some none, true⟩ := rfl

/-- C5 amended: when the fetch fails during a run that needs a cache
update (refresh forced), the failed result — Python `None` — is written
to the cache key; the store is not left unchanged. -/
theorem c5_refresh_failure_writes_none (cached : Option (Option (List Repo))) :
    parse true false cached none = Except.ok ⟨none, some none, true⟩ := rfl

/-! ## C10 -/

/-- C10: on every control path of `parse`, the local `results` is bound
before it is read: in particular a `KeyError` cache miss sets
`cache_needs_update`, whose disjunct short-circuits `not results` on
line 153, so no path evaluates the branch test, the cache write or
`populate` with `results` unbound (no `Except.error` outcome). -/
theorem c10_results_always_bound (user_cache cache : Bool)
    (cached : Option (Option (List Repo))) (fetched : Option (List Repo)) :
    ∃ out, parse user_cache cache cached fetched = Except.ok out := by
  cases user_cache with
  | false => cases cache <;> exact ⟨_, rfl⟩
  | true =>
    cases cache with
    | false => exact ⟨_, rfl⟩
    | true =>
      cases cached with
      | none => exact ⟨_, rfl⟩
      | some v => exact ⟨_, parse_hit v fetched⟩

/-! ## Inventory-sink characterization -/

/-- Group presence after one mutation. -/
theorem applyOp_groups (inv : Inventory) (op : Op) (g : String) :
    (applyOp inv op).groups g = (inv.groups g || opAddsGroup g op) := by
  cases op <;> simp [applyOp, opAddsGroup, Bool.or_comm]

/-- Host membership after one mutation. -/
theorem applyOp_hosts (inv : Inventory) (op : Op) (g h : String) :
    (applyOp inv op).hosts g h = (inv.hosts g h || opAddsHost g h op) := by
  cases op <;> simp [applyOp, opAddsHost, Bool.or_comm]

/-- Host variables after one mutation. -/
theorem applyOp_hostvars (inv : Inventory) (op : Op) (h k : String) :
    (applyOp inv op).hostvars h k =
      (match writeOf h k op with
        | some v => some v
        | none => inv.hostvars h k) := by
  cases op with
  | addGroup gx => simp [applyOp, writeOf]
  | addHost hx gx => simp [applyOp, writeOf]
  | setVar hx kx v =>
    simp only [applyOp, writeOf]
    cases hc : (h == hx && k == kx) <;> simp [hc]

/-- Group presence after a mutation sequence: initial state joined with
the groups the sequence adds. -/
theorem applyOps_groups (L : List Op) (inv : Inventory) (g : String) :
    (applyOps L inv).groups g = (inv.groups g || L.any (opAddsGroup g)) := by
  induction L generalizing inv with
  | nil => simp [applyOps]
  | cons op L ih =>
    rw [show applyOps (op :: L) inv = applyOps L (applyOp inv op) from rfl, ih,
      applyOp_groups]
    simp [Bool.or_assoc]

/-- Host membership after a mutation sequence. -/
theorem applyOps_hosts (L : List Op) (inv : Inventory) (g h : String) :
    (applyOps L inv).hosts g h = (inv.hosts g h || L.any (opAddsHost g h)) := by
  induction L generalizing inv with
  | nil => simp [applyOps]
  | cons op L ih =>
    rw [show applyOps (op :: L) inv = applyOps L (applyOp inv op) from rfl, ih,
      applyOp_hosts]
    simp [Bool.or_assoc]

/-- Host variables after a mutation sequence: the last write wins,
otherwise the initial value persists. -/
theorem applyOps_hostvars (L : List Op) (inv : Inventory) (h k : String) :
    (applyOps L inv).hostvars h k =
      (match lastWrite h k L with
        | some v => some v
        | none => inv.hostvars h k) := by
  induction L generalizing inv with
  | nil => simp [applyOps, lastWrite]
  | cons op L ih =>
    rw [show applyOps (op :: L) inv = applyOps L (applyOp inv op) from rfl, ih]
    cases hlw : lastWrite h k L with
    | some v => simp [lastWrite, hlw]
    | none =>
      rw [applyOp_hostvars]
      simp only [lastWrite, hlw]

/-- Replaying a mutation sequence on its own result changes nothing. -/
theorem applyOps_idem (L : List Op) (inv : Inventory) :
    applyOps L (applyOps L inv) = applyOps L inv := by
  apply Inventory.ext
  · funext g
    rw [applyOps_groups L (applyOps L inv) g, applyOps_groups L inv g]
    cases inv.groups g <;> cases hx : L.any (opAddsGroup g) <;> rfl
  · funext g h
    rw [applyOps_hosts L (applyOps L inv) g h, applyOps_hosts L inv g h]
    cases inv.hosts g h <;> cases hx : L.any (opAddsHost g h) <;> rfl
  · funext h k
    rw [applyOps_hostvars L (applyOps L inv) h k, applyOps_hostvars L inv h k]
    cases hlw : lastWrite h k L <;> simp

/-! ## C8 -/

/-- C8: populate is idempotent — running it a second time with the same
repository sequence, configuration and regex engine over the inventory
state left by the first run reproduces that state exactly: no duplicate
groups or hosts, and variables keep their values. -/
theorem c8_populate_idem (rf : String) (gbl : Bool)
    (f : String → String → List (List String)) (r : Option (List Repo))
    (inv : Inventory) :
    populate rf gbl f r (populate rf gbl f r inv) = populate rf gbl f r inv := by
  cases r with
  | none => rfl
  | some repos => exact applyOps_idem (popOps rf gbl f repos) inv

/-! ## Membership structure of the emitted mutations -/

/-- Unfolding `popOps` on a successfully processed head repository. -/
theorem popOps_cons_some {rf : String} {gbl : Bool}
    {f : String → String → List (List String)} {p : Repo} {ps : List Repo}
    {ops : List Op} (h : repoOps rf gbl f p = some ops) :
    popOps rf gbl f (p :: ps) = ops ++ popOps rf gbl f ps := by
  simp [popOps, h]

/-- Unfolding `popOps` on a raising head repository: the batch stops. -/
theorem popOps_cons_none {rf : String} {gbl : Bool}
    {f : String → String → List (List String)} {p : Repo} {ps : List Repo}
    (h : repoOps rf gbl f p = none) :
    popOps rf gbl f (p :: ps) = [] := by
  simp [popOps, h]

/-- Every mutation of the group-name loop is an `add_group` or
`add_host` on the hyphen-normalized group name, with the repository
name as host. -/
theorem groupOps_mem {name : String} {gn : List String} {op : Op}
    (hop : op ∈ groupOps name gn) :
    ∃ ge, ge ∈ gn ∧
      (op = Op.addGroup (pyReplaceDash ge) ∨ op = Op.addHost name (pyReplaceDash ge)) := by
  induction gn with
  | nil => simp [groupOps] at hop
  | cons ge rest ih =>
    simp only [groupOps, List.mem_cons] at hop
    rcases hop with h | h | h
    · exact ⟨ge, by simp, Or.inl h⟩
    · exact ⟨ge, by simp, Or.inr h⟩
    · rcases ih h with ⟨x, hx, ho⟩
      exact ⟨x, by simp [hx], ho⟩

/-- Every mutation of the language loop is an `add_group` or `add_host`
on the safe language group name, with the repository name as host. -/
theorem langOps_mem {name : String} {langs : List (String × Nat)} {op : Op}
    (hop : op ∈ langOps name langs) :
    ∃ kv, kv ∈ langs ∧
      (op = Op.addGroup (to_safe_group_name (pyRemoveSpaces (pyLower kv.1))) ∨
        op = Op.addHost name (to_safe_group_name (pyRemoveSpaces (pyLower kv.1)))) := by
  induction langs with
  | nil => simp [langOps] at hop
  | cons kv rest ih =>
    simp only [langOps, List.mem_cons] at hop
    rcases hop with h | h | h
    · exact ⟨kv, by simp, Or.inl h⟩
    · exact ⟨kv, by simp, Or.inr h⟩
    · rcases ih h with ⟨x, hx, ho⟩
      exact ⟨x, by simp [hx], ho⟩

/-- Every mutation of the variable block is a `set_variable`. -/
theorem varOps_mem {p : Repo} {team : Option String} {op : Op}
    (hop : op ∈ varOps p team) : ∃ hx kx vx, op = Op.setVar hx kx vx := by
  cases team with
  | none =>
    simp only [varOps, List.mem_cons, List.mem_append, List.mem_map,
      List.not_mem_nil, or_false] at hop
    rcases hop with h | h | ⟨kv, hkv, h⟩
    · exact ⟨_, _, _, h⟩
    · exact ⟨_, _, _, h⟩
    · exact ⟨_, _, _, h.symm⟩
  | some t =>
    simp only [varOps, List.mem_cons, List.mem_append, List.mem_map,
      List.mem_singleton, List.not_mem_nil, or_false] at hop
    rcases hop with h | h | ⟨kv, hkv, h⟩ | h
    · exact ⟨_, _, _, h⟩
    · exact ⟨_, _, _, h⟩
    · exact ⟨_, _, _, h.symm⟩
    · exact ⟨_, _, _, h⟩

/-- Every mutation of one processed repository comes from its group-name
loop, its language loop, or its variable block. -/
theorem repoOps_mem {rf : String} {gbl : Bool}
    {f : String → String → List (List String)} {p : Repo} {ops : List Op}
    {op : Op} (hro : repoOps rf gbl f p = some ops) (hop : op ∈ ops) :
    op ∈ groupOps p.name (computeGroupnames rf f p) ∨
      (∃ langs, p.languages = some langs ∧ op ∈ langOps p.name langs) ∨
      op ∈ varOps p (findTeam p.topics) := by
  cases gbl with
  | false =>
    simp only [repoOps, Bool.false_eq_true, if_false] at hro
    rcases Option.some.inj hro with h
    rw [← h] at hop
    rcases List.mem_append.1 hop with h1 | h2
    · exact Or.inl h1
    · exact Or.inr (Or.inr h2)
  | true =>
    cases hl : p.languages with
    | none => simp [repoOps, hl] at hro
    | some langs =>
      simp only [repoOps, if_true, hl] at hro
      rcases Option.some.inj hro with h
      rw [← h] at hop
      rcases List.mem_append.1 hop with h12 | h3
      · rcases List.mem_append.1 h12 with h1 | h2
        · exact Or.inr (Or.inl ⟨langs, rfl, h1⟩)
        · exact Or.inl h2
      · exact Or.inr (Or.inr h3)

/-! ## C2 -/

/-- C2 counterexample: for the concrete repository with `id = 42` and
`name = "repo-a"`, the host created in its `team_platform` group is
keyed by the name `repo-a`; no host keyed by the identifier `42`
exists, contradicting the claim that the `id` field is the host key. -/
theorem c2_counterexample :
    (populate "" false noFind (some [repoA]) Inventory.fresh).hosts
        "team_platform" "repo-a" = true ∧
      (populate "" false noFind (some [repoA]) Inventory.fresh).hosts
        "team_platform" "42" = false :=
  ⟨rfl, rfl⟩

/-- C2 amended: every host the populator creates is keyed by the
repository's NAME (`str(project['name'])`, line 225), not its `id`:
any `add_host` mutation emitted for a batch uses some batch
repository's name as the host key. -/
theorem c2_addhost_uses_name (rf : String) (gbl : Bool)
    (f : String → String → List (List String)) (repos : List Repo)
    (h g : String) (hop : Op.addHost h g ∈ popOps rf gbl f repos) :
    ∃ p, p ∈ repos ∧ h = p.name := by
  induction repos with
  | nil => simp [popOps] at hop
  | cons p ps ih =>
    cases hro : repoOps rf gbl f p with
    | none =>
      rw [popOps_cons_none hro] at hop
      simp at hop
    | some ops =>
      rw [popOps_cons_some hro] at hop
      rcases List.mem_append.1 hop with h1 | h2
      · rcases repoOps_mem hro h1 with hgo | ⟨langs, _, hlo⟩ | hvo
        · rcases groupOps_mem hgo with ⟨ge, _, hc | hc⟩
          · exact absurd hc (by simp)
          · rcases Op.addHost.inj hc with ⟨hh, _⟩
            exact ⟨p, by simp, hh⟩
        · rcases langOps_mem hlo with ⟨kv, _, hc | hc⟩
          · exact absurd hc (by simp)
          · rcases Op.addHost.inj hc with ⟨hh, _⟩
            exact ⟨p, by simp, hh⟩
        · rcases varOps_mem hvo with ⟨hx, kx, vx, hc⟩
          exact absurd hc (by simp)
      · rcases ih h2 with ⟨q, hq, hname⟩
        exact ⟨q, by simp [hq], hname⟩

/-- Witness for C2 amended: the concrete `add_host` mutation for
`repoA` uses its name. -/
theorem c2_addhost_uses_name_witness :
    ∃ p, p ∈ [repoA] ∧ "repo-a" = p.name :=
  c2_addhost_uses_name "" false noFind [repoA] "repo-a" "team_platform" (by decide)

/-! ## C3 -/

/-- C3 counterexample: with `group_by_languages` on, the first
repository raises on `project['languages'].items()`; the second,
well-formed repository is then NOT populated (its `unassigned` host is
absent), although populating it alone succeeds — the broad `try/except`
around the whole loop (lines 195-239) aborts the batch. -/
theorem c3_counterexample :
    (populate "" true noFind (some [badRepo, goodRepo]) Inventory.fresh).hosts
        "unassigned" "good" = false ∧
      (populate "" true noFind (some [goodRepo]) Inventory.fresh).hosts
        "unassigned" "good" = true :=
  ⟨rfl, rfl⟩

/-- A raising repository produces no mutations. -/
theorem repoOps_none_of_fails {rf : String} {gbl : Bool}
    {f : String → String → List (List String)} {p : Repo}
    (h : repoFails gbl p = true) : repoOps rf gbl f p = none := by
  simp only [repoFails, Bool.and_eq_true] at h
  rcases h with ⟨h1, h2⟩
  rw [h1]
  rw [Option.isNone_iff_eq_none] at h2
  simp [repoOps, h2]

/-- Mutations of a batch are truncated at the first raising repository. -/
theorem popOps_append_none {rf : String} {gbl : Bool}
    {f : String → String → List (List String)} {p : Repo} (rest : List Repo)
    (h : repoOps rf gbl f p = none) (l : List Repo) :
    popOps rf gbl f (l ++ p :: rest) = popOps rf gbl f l := by
  induction l with
  | nil =>
    rw [List.nil_append, popOps_cons_none h]
    rfl
  | cons q l ih =>
    rw [List.cons_append]
    cases hq : repoOps rf gbl f q with
    | none => rw [popOps_cons_none hq, popOps_cons_none hq]
    | some ops => rw [popOps_cons_some hq, popOps_cons_some hq, ih]

/-- C3 amended: a failure while processing one repository is caught and
logged at BATCH level: the repositories before it are populated, but
the failing repository and every subsequent repository in the sequence
are skipped — the final inventory equals the one obtained from the
prefix alone (failure isolation is per-batch, not per-repository). -/
theorem c3_failure_aborts_batch (rf : String) (gbl : Bool)
    (f : String → String → List (List String)) (l : List Repo) (p : Repo)
    (rest : List Repo) (inv : Inventory) (h : repoFails gbl p = true) :
    populate rf gbl f (some (l ++ p :: rest)) inv = populate rf gbl f (some l) inv := by
  show applyOps (popOps rf gbl f (l ++ p :: rest)) inv = applyOps (popOps rf gbl f l) inv
  rw [popOps_append_none rest (repoOps_none_of_fails h) l]

/-- Witness for C3 amended at the concrete failing repository. -/
theorem c3_failure_aborts_batch_witness :
    repoFails true badRepo = true ∧
      populate "" true noFind (some ([] ++ badRepo :: [goodRepo])) Inventory.fresh =
        populate "" true noFind (some []) Inventory.fresh :=
  ⟨rfl, c3_failure_aborts_batch "" true noFind [] badRepo [goodRepo] Inventory.fresh rfl⟩

/-! ## C9 -/

/-- C9: every group name handed to the inventory sink — by `add_group`
or as the group of an `add_host` — contains no literal hyphen: the
group-name loop normalizes with `.replace("-", "_")` (line 223) and the
language loop passes names through `to_safe_group_name` (line 220),
which also maps `-` to `_`. -/
theorem c9_group_names_no_hyphen (rf : String) (gbl : Bool)
    (f : String → String → List (List String)) (repos : List Repo)
    (op : Op) (g : String) (hop : op ∈ popOps rf gbl f repos)
    (hg : g ∈ opGroupNames op) : ('-' : Char) ∉ g.data := by
  induction repos with
  | nil => simp [popOps] at hop
  | cons p ps ih =>
    cases hro : repoOps rf gbl f p with
    | none =>
      rw [popOps_cons_none hro] at hop
      simp at hop
    | some ops =>
      rw [popOps_cons_some hro] at hop
      rcases List.mem_append.1 hop with h1 | h2
      · rcases repoOps_mem hro h1 with hgo | ⟨langs, _, hlo⟩ | hvo
        · rcases groupOps_mem hgo with ⟨ge, _, hc | hc⟩ <;>
            (subst hc
             simp only [opGroupNames, List.mem_singleton] at hg
             subst hg
             exact pyReplaceDash_no_dash ge)
        · rcases langOps_mem hlo with ⟨kv, _, hc | hc⟩ <;>
            (subst hc
             simp only [opGroupNames, List.mem_singleton] at hg
             subst hg
             exact to_safe_group_name_no_dash (pyRemoveSpaces (pyLower kv.1)))
        · rcases varOps_mem hvo with ⟨hx, kx, vx, hc⟩
          subst hc
          simp [opGroupNames] at hg
      · exact ih h2

/-- Witness for C9 at a concrete `add_group` mutation. -/
theorem c9_group_names_no_hyphen_witness :
    Op.addGroup "team_x" ∈ popOps "" false noFind [repoTX] ∧
      ('-' : Char) ∉ ("team_x" : String).data :=
  ⟨by decide,
    c9_group_names_no_hyphen "" false noFind [repoTX] (Op.addGroup "team_x")
      "team_x" (by decide) (by decide)⟩
